import Mathlib

/-!
Shallow embedding of the dns-tunnel-vpn supervision engine, translated from
the Go sources, together with proofs settling the frozen claims about the
natural-language specification.

The repository contains two resolver-pool implementations:
* `internal/resolver/pool.go` (package `resolver`) — the pool actually wired
  into the application (`internal/app/app.go`); embedded below in namespace
  `DT` as `Pool`.
* `src/unnamed/part_002` (package `pool`) — a second pool keyed by a blocked
  set; embedded below as `PPool`.

Machine integers: Go `int` counters that only ever grow from 0 are `Nat`;
the health monitor's hysteresis counter is signed and is `Int`.
Go `time.Time` / `time.Duration` fields are modelled as `Option Nat`
(`none` = the Go zero value, i.e. the field was never written by a pool
operation; every write stores `some _`), so "the field is set" is observable.
-/

namespace DT

/-! ## Resolver record and pool — `internal/resolver/pool.go` -/

/-- `Status` from `internal/resolver/pool.go` lines 9-21. -/
inductive RStatus where
  | unknown
  | healthy
  | degraded
  | blocked
deriving DecidableEq, Repr

/-- `Resolver` from `internal/resolver/pool.go` lines 23-45.
`lastCheck`, `latency`, `blockedAt` are `Option Nat`: `none` is the Go zero
value (never stamped), `some v` a value written by a pool operation. -/
structure Resolver where
  address : String
  type : String
  status : RStatus
  lastCheck : Option Nat
  failCount : Nat
  latency : Option Nat
  blockedAt : Option Nat
deriving DecidableEq, Repr

/-- `Pool` from `internal/resolver/pool.go` lines 47-52 (the mutex is a
run-time artefact; the pool's lock totally orders mutations, so the model is
the sequential state). -/
structure Pool where
  resolvers : List Resolver
  current : Nat
deriving DecidableEq, Repr

/-- `NewPool`, lines 54-60. -/
def Pool.new : Pool := ⟨[], 0⟩

/-- `Pool.Add`, lines 62-79: idempotent on address, appends with
`StatusUnknown` and zero-valued health fields. -/
def Pool.add (p : Pool) (address ty : String) : Pool :=
  if p.resolvers.any (fun r => r.address == address) then p
  else { p with resolvers := p.resolvers ++ [⟨address, ty, .unknown, none, 0, none, none⟩] }

/-- `Pool.Get`, lines 88-98: returns the entry at the cursor with no status
check at all (the cursor entry is returned even when blocked). -/
def Pool.get (p : Pool) : Option Resolver :=
  if p.resolvers.isEmpty then none
  else p.resolvers.get? p.current

/-- The scan loop inside `Pool.Next`, lines 109-123: repeatedly advance the
cursor mod `rs.length`; if the cursor comes back to `startIdx` return that
entry even if blocked; otherwise return the first non-blocked entry.  The Go
loop always terminates within `rs.length` steps, which the fuel mirrors. -/
def nextScan (rs : List Resolver) (startIdx : Nat) : Nat → Nat → Option Nat
  | 0, _ => none
  | fuel + 1, cur =>
    let cur' := (cur + 1) % rs.length
    if cur' == startIdx then some cur'
    else match rs.get? cur' with
      | some r => if r.status ≠ .blocked then some cur' else nextScan rs startIdx fuel cur'
      | none => none

/-- `Pool.Next`, lines 100-124.  Returns the chosen resolver and the updated
pool (the Go method mutates `p.current`). -/
def Pool.next (p : Pool) : Option Resolver × Pool :=
  if p.resolvers.isEmpty then (none, p)
  else
    match nextScan p.resolvers p.current p.resolvers.length p.current with
    | some i => (p.resolvers.get? i, { p with current := i })
    | none => (none, p)

/-- Updates the first list entry whose address matches, leaving the rest
untouched — the shared shape of the `for … if r.Address == address { …; return }`
loops in `MarkBlocked` / `MarkHealthy` / `MarkFailed`. -/
def updateFirst (address : String) (f : Resolver → Resolver) : List Resolver → List Resolver
  | [] => []
  | r :: rest =>
    if r.address == address then f r :: rest
    else r :: updateFirst address f rest

/-- `Pool.MarkBlocked`, lines 126-138.  `now` is the `time.Now()` stamp. -/
def Pool.markBlocked (p : Pool) (address : String) (now : Nat) : Pool :=
  let f : Resolver → Resolver := fun r => { r with status := .blocked, blockedAt := some now }
  { p with resolvers := updateFirst address f p.resolvers }

/-- `Pool.MarkHealthy`, lines 140-154. -/
def Pool.markHealthy (p : Pool) (address : String) (latency now : Nat) : Pool :=
  let f : Resolver → Resolver := fun r =>
    { r with status := .healthy, lastCheck := some now, failCount := 0, latency := some latency }
  { p with resolvers := updateFirst address f p.resolvers }

/-- `Pool.MarkFailed`, lines 156-171: increments `FailCount`, stamps
`LastCheck`, and only once `FailCount ≥ 3` demotes the status to degraded;
below the threshold the status (healthy included) is left unchanged. -/
def Pool.markFailed (p : Pool) (address : String) (now : Nat) : Pool :=
  let f : Resolver → Resolver := fun r =>
    let fc := r.failCount + 1
    { r with failCount := fc, lastCheck := some now,
             status := if fc ≥ 3 then .degraded else r.status }
  { p with resolvers := updateFirst address f p.resolvers }

/-- `Pool.IsExhausted`, lines 208-219: true iff no resolver has a
status other than blocked (vacuously true for the empty pool). -/
def Pool.isExhausted (p : Pool) : Bool :=
  p.resolvers.all (fun r => r.status == .blocked)

/-- `Pool.Clear`, lines 221-228. -/
def Pool.clear (_ : Pool) : Pool := ⟨[], 0⟩

/-! ## The second pool — `src/unnamed/part_002` (package `pool`)

This pool keeps a `blocked` set of IP strings (Go `map[string]bool`, here a
list of the keys mapped to `true`) beside the resolver list and the cursor. -/

/-- `resolver.Resolver` from `internal/resolver/resolver.go` (the record the
`pool` package stores). -/
structure PResolver where
  ip : String
  port : Nat
  protocol : String
  name : String
deriving DecidableEq, Repr

/-- `pool.Pool` from `src/unnamed/part_002` lines 9-15. -/
structure PPool where
  resolvers : List PResolver
  blocked : List String
  current : Nat
deriving DecidableEq, Repr

/-- `pool.NewPool`, lines 17-24. -/
def PPool.new : PPool := ⟨[], [], 0⟩

/-- `pool.Pool.SetResolvers`, lines 26-34. -/
def PPool.setResolvers (_ : PPool) (rs : List PResolver) : PPool := ⟨rs, [], 0⟩

/-- `pool.Pool.Current`, lines 36-62: empty → nil; in-range non-blocked
cursor entry → that entry; otherwise the first non-blocked entry scanning
from index 0; nil when every entry is blocked. -/
def PPool.currentRes (p : PPool) : Option PResolver :=
  if p.resolvers.isEmpty then none
  else
    let atCursor : Option PResolver :=
      match p.resolvers.get? p.current with
      | some r => if p.blocked.contains r.ip then none else some r
      | none => none
    match atCursor with
    | some r => some r
    | none => p.resolvers.find? (fun r => !(p.blocked.contains r.ip))

/-- The scan loop inside `pool.Pool.Next`, lines 74-83: try the indices
`(startIdx + 1 + i) % n` for `i = 0, …, n-1` and return the first
non-blocked one.  The fuel is the number of indices still to try. -/
def pNextScan (rs : List PResolver) (blocked : List String) (startIdx : Nat) :
    Nat → Nat → Option Nat
  | 0, _ => none
  | fuel + 1, i =>
    let idx := (startIdx + 1 + i) % rs.length
    match rs.get? idx with
    | some r => if blocked.contains r.ip then pNextScan rs blocked startIdx fuel (i + 1)
                else some idx
    | none => none

/-- `pool.Pool.Next`, lines 64-86: moves the cursor to the next non-blocked
resolver; nil (cursor untouched) when the pool is empty or every resolver is
blocked. -/
def PPool.next (p : PPool) : Option PResolver × PPool :=
  if p.resolvers.isEmpty then (none, p)
  else
    match pNextScan p.resolvers p.blocked p.current p.resolvers.length 0 with
    | some idx => (p.resolvers.get? idx, { p with current := idx })
    | none => (none, p)

/-- `pool.Pool.MarkBlocked`, lines 88-94: inserts the IP into the blocked
set (`p.blocked[ip] = true`). -/
def PPool.markBlocked (p : PPool) (ip : String) : PPool :=
  if p.blocked.contains ip then p else { p with blocked := ip :: p.blocked }

/-- `pool.Pool.IsExhausted`, lines 96-112 (an empty pool counts as
exhausted). -/
def PPool.isExhausted (p : PPool) : Bool :=
  p.resolvers.all (fun r => p.blocked.contains r.ip)

/-- `pool.Pool.Reset`, lines 114-121: clears the blocked set and rewinds the
cursor. -/
def PPool.reset (p : PPool) : PPool := { p with blocked := [], current := 0 }

/-- The operations that can run between a `MarkBlocked` and the next state
reset: further `MarkBlocked` calls and cursor advances (`Next`).  `Current`,
`IsExhausted`, `Count`, `Available` are pure reads. -/
inductive POp where
  | markBlocked (ip : String)
  | next
deriving DecidableEq, Repr

/-- Applies one non-reset operation to the pool state. -/
def PPool.applyOp (p : PPool) : POp → PPool
  | .markBlocked ip => p.markBlocked ip
  | .next => (p.next).2

/-- Runs a sequence of non-reset operations. -/
def PPool.run (p : PPool) (ops : List POp) : PPool :=
  ops.foldl PPool.applyOp p

/-! ## Health monitor — `internal/health/monitor.go` -/

/-- `health.Status`, lines 18-28. -/
inductive HStatus where
  | healthy
  | degraded
  | unhealthy
deriving DecidableEq, Repr

/-- The `health.HealthConfig` fields the hysteresis uses
(`internal/config/unified.go`). -/
structure HealthConfig where
  failThreshold : Int
  recoveryThreshold : Int
deriving DecidableEq, Repr

/-- The monitor's hysteresis state: status and signed counter `failCount`
(monitor.go lines 36-38), plus the two one-slot event channels
(lines 40-42).  `…Slot = true` means the slot holds an undrained event;
`…Emits` counts the successful non-blocking sends into the slot. -/
structure Monitor where
  status : HStatus
  failCount : Int
  onUnhealthySlot : Bool
  onHealthySlot : Bool
  unhealthyEmits : Nat
  healthyEmits : Nat
deriving DecidableEq, Repr

/-- `health.New`, lines 49-62: status healthy, counter 0, both slots empty. -/
def Monitor.new : Monitor := ⟨.healthy, 0, false, false, 0, 0⟩

/-- The non-blocking one-slot send `select { case ch <- struct{}{}: default: }`
(lines 210-213 and 231-234): fills the slot when empty, otherwise drops. -/
def slotSend (slot : Bool) (emits : Nat) : Bool × Nat :=
  if slot then (slot, emits) else (true, emits + 1)

/-- `Monitor.handleFailure`, lines 198-218. -/
def Monitor.handleFailure (cfg : HealthConfig) (m : Monitor) : Monitor :=
  let m := { m with failCount := m.failCount + 1 }
  if m.failCount ≥ cfg.failThreshold then
    if m.status ≠ .unhealthy then
      let m := { m with status := .unhealthy }
      let s := slotSend m.onUnhealthySlot m.unhealthyEmits
      { m with onUnhealthySlot := s.1, unhealthyEmits := s.2 }
    else m
  else if m.failCount > 0 && m.status == .healthy then { m with status := .degraded }
  else m

/-- `Monitor.handleSuccess`, lines 220-239 (the latency argument only feeds
the log line and is dropped). -/
def Monitor.handleSuccess (cfg : HealthConfig) (m : Monitor) : Monitor :=
  if m.status = .unhealthy ∨ m.status = .degraded then
    let m := { m with failCount := m.failCount - 1 }
    if m.failCount ≤ -cfg.recoveryThreshold then
      let m := { m with status := .healthy, failCount := 0 }
      let s := slotSend m.onHealthySlot m.healthyEmits
      { m with onHealthySlot := s.1, healthyEmits := s.2 }
    else m
  else { m with failCount := 0 }

/-- Modelled from the spec: `Monitor.Reset` is invoked by the orchestrator
(`internal/app/app.go` line 214) but its definition is absent from the
provided sources (monitor.go lines 241-266 declare only the accessors and
`Stop`).  Per the spec, "`reset()` forces `status = healthy`, `c = 0`". -/
def Monitor.reset (m : Monitor) : Monitor :=
  { m with status := .healthy, failCount := 0 }

/-- `n` consecutive failed checks starting from monitor state `m`. -/
def Monitor.failures (cfg : HealthConfig) (m : Monitor) : Nat → Monitor
  | 0 => m
  | n + 1 => Monitor.handleFailure cfg (Monitor.failures cfg m n)

/-- `n` consecutive successful checks starting from monitor state `m`. -/
def Monitor.successes (cfg : HealthConfig) (m : Monitor) : Nat → Monitor
  | 0 => m
  | n + 1 => Monitor.handleSuccess cfg (Monitor.successes cfg m n)

/-! ## SOCKS5 health probe — `Monitor.testSOCKS5Connection`
(`internal/health/monitor.go` lines 132-196)

The network is abstracted as the outcome of each I/O step in order: the TCP
dial, the greeting write, the two-byte `io.ReadFull`, the CONNECT-request
write, and the ten-byte `io.ReadFull` (`none` = the read failed; a `some`
reply has exactly the requested length, as `io.ReadFull` guarantees). -/

structure SocksEnv where
  dialOk : Bool
  write1Ok : Bool
  reply1 : Option (List Nat)
  write2Ok : Bool
  reply2 : Option (List Nat)
deriving DecidableEq, Repr

/-- Result of one probe: the byte strings successfully written to the proxy
connection, in order, and whether the probe returned nil (success). -/
structure SocksResult where
  sent : List (List Nat)
  ok : Bool
deriving DecidableEq, Repr

/-- The three-byte SOCKS5 greeting `05 01 00` written at line 147. -/
def socksGreeting : List Nat := [0x05, 0x01, 0x00]

/-- The SOCKS5 CONNECT request written at lines 169-174: cmd=CONNECT,
atyp=IPv4, destination 8.8.8.8 port 53. -/
def socksConnectReq : List Nat := [0x05, 0x01, 0x00, 0x01, 8, 8, 8, 8, 0x00, 0x35]

/-- `Monitor.testSOCKS5Connection`, lines 132-196: dial, greeting, two-byte
reply checked for version `0x05` and auth method ≠ `0xFF`, then a CONNECT
request to 8.8.8.8:53 whose ten-byte reply must have version `0x05` and
reply code `0x00`. -/
def testSOCKS5Connection (env : SocksEnv) : SocksResult :=
  if !env.dialOk then ⟨[], false⟩
  else if !env.write1Ok then ⟨[], false⟩
  else
    match env.reply1 with
    | none => ⟨[socksGreeting], false⟩
    | some resp =>
      if resp.get? 0 ≠ some 0x05 then ⟨[socksGreeting], false⟩
      else if resp.get? 1 = some 0xFF then ⟨[socksGreeting], false⟩
      else if !env.write2Ok then ⟨[socksGreeting], false⟩
      else
        match env.reply2 with
        | none => ⟨[socksGreeting, socksConnectReq], false⟩
        | some resp2 =>
          if resp2.get? 0 ≠ some 0x05 then ⟨[socksGreeting, socksConnectReq], false⟩
          else if resp2.get? 1 ≠ some 0x00 then ⟨[socksGreeting, socksConnectReq], false⟩
          else ⟨[socksGreeting, socksConnectReq], true⟩

/-! ## Tunnel supervisor readiness — `Manager.Connect`
(`internal/tunnel/manager.go` lines 42-121)

Abstraction: `startOk` is whether `cmd.Start()` succeeded; `alive i` is what
`isProcessRunning` observes at poll `i`; `dialOk i` is whether the dial of
the local port succeeds at poll `i`.  The prior-session teardown, argument
construction, and timing are not readiness-relevant. -/

/-- The readiness poll loop, lines 99-114: up to `fuel` iterations (20 in
the source); each iteration first checks the child process and returns an
error if it died, then dials the local port and stops polling (port open)
on success.  `Except.ok b` returns the final `portOpen` flag. -/
def connectPoll (alive dialOk : Nat → Bool) : Nat → Nat → Except String Bool
  | _, 0 => .ok false
  | i, fuel + 1 =>
    if !(alive i) then .error "dnstt-client exited unexpectedly"
    else if dialOk i then .ok true
    else connectPoll alive dialOk (i + 1) fuel

/-- `Manager.Connect`, lines 42-121: fails when `cmd.Start()` fails or the
poll loop observes the child dead; in every other case — the port opened, or
the 20-attempt window elapsed with the child still alive (lines 116-120 log
a warning only) — it returns nil. -/
def managerConnect (startOk : Bool) (alive dialOk : Nat → Bool) : Except String Unit :=
  if !startOk then .error "failed to start dnstt-client"
  else
    match connectPoll alive dialOk 0 20 with
    | .error e => .error e
    | .ok _ => .ok ()

/-! ## Country-feed parsing — `internal/scanner/background.go` lines 74-144

The Go code leans on `net.ParseCIDR` / `net.ParseIP` / `net.IP.To4` /
`net.IP.String`; all of their paths reached from `extractFirstIP` are
transcribed: dotted-quad IPv4 (leading-zero rejection, fields ≤ 255), the
full textual IPv6 parser (`xtoi` hex chunks with the `big` cutoff, one `::`
ellipsis, trailing embedded dotted quad), `CIDRMask` masking over 32 or 128
bits, `To4`'s IPv4-mapped (`::ffff:a.b.c.d`) conversion, the byte-carry
increment with overflow → nil, and `String`'s dotted-quad /
canonical-hex-with-elision rendering. -/

/-- Splits a character list at every occurrence of `sep` — the behaviour of
`strings.Split` / `String.splitOn` for a one-character separator, written by
structural recursion so concrete feeds evaluate inside the kernel. -/
def splitCh (sep : Char) : List Char → List (List Char)
  | [] => [[]]
  | c :: rest =>
    if c == sep then [] :: splitCh sep rest
    else
      match splitCh sep rest with
      | h :: t => (c :: h) :: t
      | [] => [[c]]

/-- `strings.TrimSpace`: whitespace stripped from both ends. -/
def trimCh (l : List Char) : List Char :=
  ((l.dropWhile Char.isWhitespace).reverse.dropWhile Char.isWhitespace).reverse

/-- The numeric value of a digit string (callers check `isDigit` first). -/
def digitsToNat (l : List Char) : Nat :=
  l.foldl (fun a c => a * 10 + (c.toNat - '0'.toNat)) 0

/-- One dotted-quad field as Go's `net` parser reads it: non-empty decimal
digits, value at most 255, no leading zero. -/
def parseOctet (l : List Char) : Option Nat :=
  if l.isEmpty then none
  else if !(l.all Char.isDigit) then none
  else if l.length > 1 && l.head? == some '0' then none
  else
    let n := digitsToNat l
    if n ≤ 255 then some n else none

/-- A dotted-quad IPv4 address as one `Nat < 2^32`. -/
def parseIPv4 (l : List Char) : Option Nat :=
  match (splitCh '.' l).map parseOctet with
  | [some a, some b, some c, some d] => some (((a * 256 + b) * 256 + c) * 256 + d)
  | _ => none

/-- The value of one hexadecimal digit, as Go's `xtoi` classifies
characters. -/
def hexDigitVal (c : Char) : Option Nat :=
  if '0' ≤ c ∧ c ≤ '9' then some (c.toNat - '0'.toNat)
  else if 'a' ≤ c ∧ c ≤ 'f' then some (c.toNat - 'a'.toNat + 10)
  else if 'A' ≤ c ∧ c ≤ 'F' then some (c.toNat - 'A'.toNat + 10)
  else none

/-- The accumulating loop of Go's `xtoi`: stop at the first non-hex
character; fail as soon as the accumulator reaches the `big` cutoff
`0xFFFFFF`. -/
def xtoiAux : List Char → Nat → Option (Nat × List Char)
  | [], n => some (n, [])
  | c :: rest, n =>
    match hexDigitVal c with
    | none => some (n, c :: rest)
    | some d =>
      let n' := n * 16 + d
      if n' ≥ 0xFFFFFF then none else xtoiAux rest n'

/-- Go's `xtoi`: the leading hex number and the unconsumed remainder; `none`
when there is no leading hex digit or the number overflows the cutoff. -/
def xtoi (l : List Char) : Option (Nat × List Char) :=
  match l with
  | [] => none
  | c :: _ =>
    match hexDigitVal c with
    | none => none
    | some _ => xtoiAux l 0

/-- The post-loop fix-up of Go's `parseIPv6`: a short parse is completed by
expanding the `::` ellipsis with zero bytes at its recorded position; a full
16-byte parse must not have an ellipsis left over. -/
def ipv6Finish (acc : List Nat) (ell : Option Nat) : Option (List Nat) :=
  if acc.length < 16 then
    match ell with
    | none => none
    | some e => some (acc.take e ++ List.replicate (16 - acc.length) 0 ++ acc.drop e)
  else if ell.isSome then none
  else some acc

/-- The main loop of Go's `parseIPv6`: 16-bit hex chunks separated by `:`,
at most one `::` ellipsis, and an optional trailing embedded dotted quad
(allowed at byte 12, or anywhere after an ellipsis).  `acc` holds the bytes
parsed so far; each iteration adds at least two bytes, so fuel 9 covers
every reachable entry. -/
def parseIPv6Loop : Nat → List Char → List Nat → Option Nat → Option (List Nat)
  | 0, _, _, _ => none
  | fuel + 1, s, acc, ell =>
    if acc.length < 16 then
      match xtoi s with
      | none => none
      | some (n, rest) =>
        if n > 0xFFFF then none
        else if rest.head? = some '.' then
          if ell.isNone ∧ acc.length ≠ 12 then none
          else if acc.length + 4 > 16 then none
          else
            match parseIPv4 s with
            | none => none
            | some v4 =>
              ipv6Finish
                (acc ++ [v4 / 2 ^ 24 % 256, v4 / 2 ^ 16 % 256, v4 / 2 ^ 8 % 256, v4 % 256]) ell
        else
          let acc := acc ++ [n / 256, n % 256]
          match rest with
          | [] => ipv6Finish acc ell
          | ':' :: rest2 =>
            match rest2 with
            | [] => none
            | ':' :: rest3 =>
              if ell.isSome then none
              else if rest3.isEmpty then ipv6Finish acc (some acc.length)
              else parseIPv6Loop fuel rest3 acc (some acc.length)
            | _ => parseIPv6Loop fuel rest2 acc ell
          | _ => none
    else none

/-- Go's `parseIPv6`: the 16 bytes of a textual IPv6 address, or `none`.  A
leading `::` is peeled off before the loop (a bare `::` is all zeros). -/
def parseIPv6 (l : List Char) : Option (List Nat) :=
  match l with
  | ':' :: ':' :: rest =>
    if rest.isEmpty then some (List.replicate 16 0)
    else parseIPv6Loop 9 rest [] (some 0)
  | _ => parseIPv6Loop 9 l [] none

/-- An IP address as `extractFirstIP` sees it: a 32-bit IPv4 value, or the
16 bytes of an IPv6 address. -/
inductive IPAddr where
  | v4 (val : Nat)
  | v6 (bytes : List Nat)
deriving DecidableEq, Repr

/-- `net.ParseIP`: the first `'.'` or `':'` in the string decides the
family. -/
def parseIP (l : List Char) : Option IPAddr :=
  match l.find? (fun c => c == '.' || c == ':') with
  | some c => if c == '.' then (parseIPv4 l).map .v4 else (parseIPv6 l).map .v6
  | none => none

/-- The prefix length: Go's `dtoi` over the whole mask string (digits only,
leading zeros tolerated), bounded by `8 * iplen`. -/
def parseMaskLen (l : List Char) (bits : Nat) : Option Nat :=
  if l.isEmpty then none
  else if !(l.all Char.isDigit) then none
  else
    let n := digitsToNat l
    if n ≤ bits then some n else none

/-- Keeps the top `n` bits of a 32-bit value, zeroing the rest — the
`ip.Mask(CIDRMask(n, 32))` network address of an IPv4 CIDR (Go's `IP.Mask`
shortens both sides to 4 bytes there). -/
def maskIPv4 (v n : Nat) : Nat :=
  (v >>> (32 - n)) <<< (32 - n)

/-- Bitwise AND of two bytes (`IP.Mask` is a byte-wise AND). -/
def landByte (a b : Nat) : Nat :=
  (List.range 8).foldl (fun acc k => acc + a / 2 ^ k % 2 * (b / 2 ^ k % 2) * 2 ^ k) 0

/-- `net.CIDRMask ones (8*len)` as a byte list: full `0xff` bytes, then one
partial byte `^(0xff >> n)`, then zeros. -/
def cidrMaskBytes (ones len : Nat) : List Nat :=
  (List.range len).map (fun i =>
    if 8 * (i + 1) ≤ ones then 0xff
    else if ones ≤ 8 * i then 0
    else 0xff - (0xff >>> (ones - 8 * i)))

/-- `IP.Mask` on equal-length byte lists. -/
def maskBytes (ip mask : List Nat) : List Nat :=
  List.zipWith landByte ip mask

/-- `net.ParseCIDR`: split at the slash, parse the address (IPv4 first,
falling back to IPv6 exactly as Go does), parse the prefix length bounded by
the address width, and return the *masked* network address (`ipNet.IP`). -/
def parseCIDR (l : List Char) : Option IPAddr :=
  match splitCh '/' l with
  | [addr, mask] =>
    match parseIPv4 addr with
    | some v =>
      match parseMaskLen mask 32 with
      | some n => some (.v4 (maskIPv4 v n))
      | none => none
    | none =>
      match parseIPv6 addr with
      | some bytes =>
        match parseMaskLen mask 128 with
        | some n => some (.v6 (maskBytes bytes (cidrMaskBytes n 16)))
        | none => none
      | none => none
  | _ => none

/-- `IP.To4` on the parsed network address: an IPv4 value is itself; a
16-byte address is IPv4 exactly when it is IPv4-mapped — ten zero bytes then
`ff ff` — in which case its last four bytes are the IPv4 value. -/
def ipTo4 : IPAddr → Option Nat
  | .v4 v => some v
  | .v6 bytes =>
    if bytes.take 10 = List.replicate 10 0 ∧ bytes.get? 10 = some 0xff ∧
        bytes.get? 11 = some 0xff then
      match bytes.drop 12 with
      | [a, b, c, d] => some (((a * 256 + b) * 256 + c) * 256 + d)
      | _ => none
    else none

/-- `incrementIP`, background.go lines 132-144: add one with byte carry;
`nil` when every byte wraps (255.255.255.255). -/
def incrementIP4 (v : Nat) : Option Nat :=
  if v + 1 < 2 ^ 32 then some (v + 1) else none

/-- `IP.String` for a 32-bit IPv4 value: the dotted quad. -/
def ip4String (v : Nat) : String :=
  toString (v / 2 ^ 24 % 256) ++ "." ++ toString (v / 2 ^ 16 % 256) ++ "." ++
    toString (v / 2 ^ 8 % 256) ++ "." ++ toString (v % 256)

/-- The 16-bit groups of a 16-byte address. -/
def ip6Groups : List Nat → List Nat
  | a :: b :: rest => (a * 256 + b) :: ip6Groups rest
  | _ => []

/-- The number of leading zero groups. -/
def countZeros : List Nat → Nat
  | 0 :: rest => countZeros rest + 1
  | _ => 0

/-- The leftmost longest run of zero groups, as byte-pair indices `(e0, e1)`
in Go's `IP.String`; a run of a single group is not elided (the sentinel is
past the end). -/
def bestZeroRun (gs : List Nat) : Nat × Nat :=
  let cand := (List.range gs.length).foldl
    (fun best i =>
      let j := i + countZeros (gs.drop i)
      if j > i ∧ j - i > best.2 - best.1 then (i, j) else best)
    (0, 0)
  if cand.2 - cand.1 ≤ 1 then (gs.length + 1, gs.length + 1) else cand

/-- One group in lowercase hex without leading zeros (`appendHex`). -/
def hexGroup (n : Nat) : String :=
  (Nat.toDigits 16 n).asString

/-- The group-printing loop of Go's `IP.String`: `::` at the elision start,
`:` separators elsewhere. -/
def ip6RenderLoop (gs : List Nat) (e0 e1 : Nat) : Nat → Nat → String
  | 0, _ => ""
  | fuel + 1, i =>
    if i < gs.length then
      if i = e0 then
        if e1 ≥ gs.length then "::"
        else "::" ++ hexGroup (gs.getD e1 0) ++ ip6RenderLoop gs e0 e1 fuel (e1 + 1)
      else
        (if i > 0 then ":" else "") ++ hexGroup (gs.getD i 0) ++
          ip6RenderLoop gs e0 e1 fuel (i + 1)
    else ""

/-- `IP.String` for a 16-byte address that is not IPv4-mapped: canonical
lowercase hex groups with the leftmost longest zero run (of at least two
groups) elided to `::`. -/
def ip6String (bytes : List Nat) : String :=
  let gs := ip6Groups bytes
  let e := bestZeroRun gs
  ip6RenderLoop gs e.1 e.2 9 0

/-- `IP.String`: `To4` first (so IPv4 and IPv4-mapped addresses print as
dotted quads), else the canonical IPv6 form. -/
def ipString : IPAddr → String
  | .v4 v => ip4String v
  | .v6 bytes =>
    match ipTo4 (.v6 bytes) with
    | some v => ip4String v
    | none => ip6String bytes

/-- `Scanner.extractFirstIP`, background.go lines 104-130: parse as CIDR and
return network + 1 (IPv6 → `""`); if CIDR parsing fails, fall back to a
plain IP; otherwise `""`. -/
def extractFirstIP (cidr : List Char) : String :=
  match parseCIDR cidr with
  | some ipn =>
    match ipTo4 ipn with
    | none => ""
    | some v =>
      match incrementIP4 v with
      | none => ""
      | some v' => ip4String v'
  | none =>
    match parseIP cidr with
    | some a => ipString a
    | none => ""

/-- What one feed line contributes: nothing when blank after trimming or a
`#` comment, nothing when `extractFirstIP` is empty, else `ip ++ ":53"`. -/
def lineCandidate (line : List Char) : Option String :=
  let t := trimCh line
  if t.isEmpty || t.head? == some '#' then none
  else
    let ip := extractFirstIP t
    if ip == "" then none else some (ip ++ ":53")

/-- The loop of `Scanner.parseCIDRList`, background.go lines 80-95: per
line, trim, skip blanks and comments, append `extractFirstIP ++ ":53"` when
non-empty, and break as soon as `MaxCandidates > 0` and the count reached
it.  `count` is `len(candidates)` so far. -/
def parseCIDRgo (maxC : Int) : List (List Char) → Nat → List String
  | [], _ => []
  | line :: rest, count =>
    let t := trimCh line
    if t.isEmpty || t.head? == some '#' then parseCIDRgo maxC rest count
    else
      let ip := extractFirstIP t
      let step : List String × Nat :=
        if ip == "" then ([], count) else ([ip ++ ":53"], count + 1)
      if maxC > 0 && (step.2 : Int) ≥ maxC then step.1
      else step.1 ++ parseCIDRgo maxC rest step.2

/-- `Scanner.parseCIDRList`, background.go lines 74-102, on the full feed
body.  Splitting at `'\n'` stands in for `bufio.Scanner`'s line splitting (a
trailing empty token only arises from a final newline and is dropped by the
blank-line skip, so the results agree). -/
def parseCIDRList (input : String) (maxC : Int) : List String :=
  parseCIDRgo maxC (splitCh '\n' input.data) 0

/-! ## Orchestrator reconnect — `App.handleDisconnect`
(`internal/app/app.go` lines 155-216)

The world visible to the reconnect routine: the pool, the supervisor's bound
resolver address (`Manager.resolverIP`, `none` for `""`), the monitor, and
two oracles consumed in call order — scanner sweeps (`none` = the sweep
errored; `some addrs` = the resolvers it found, each added and marked
healthy as `Scanner.Scan` does) and `Manager.Connect` outcomes.
`MarkBlocked` / `MarkHealthy` timestamps are irrelevant here and fixed at 0.
The Go recursion is bounded only by pool exhaustion; `fuel` makes that
explicit. -/

/-- The three ways `Manager.Connect` can come back: `cmd.Start()` failed
(binding unchanged), the child died during the readiness poll (the binding
was already updated to the new resolver), or success. -/
inductive ConnectOutcome where
  | startFail
  | pollDead
  | ok
deriving DecidableEq, Repr

structure OrchWorld where
  pool : Pool
  currentRes : Option String
  monitor : Monitor
  scannerEnabled : Bool
  scans : List (Option (List String))
  connects : List ConnectOutcome
deriving DecidableEq, Repr

/-- What a successful scanner sweep does to the pool (`Scanner.Scan`,
scanner.go lines 79-86): `Add` then `MarkHealthy` per working resolver. -/
def scanInto (p : Pool) (addrs : List String) : Pool :=
  addrs.foldl (fun p a => (p.add a "udp").markHealthy a 0 0) p

/-- `App.handleDisconnect`, app.go lines 171-216: block the current
resolver, advance; on exhaustion run a scan (returning early when it errors
or finds nothing); give up when no resolver remains; otherwise connect,
recursing on failure; on success reset the monitor.  The returned Bool is
whether the routine reached Step 5 (a successful reconnect).  An exhausted
oracle list plays the same role as fuel 0: the run is cut short on a
non-reconnected branch. -/
def handleDisconnect : Nat → OrchWorld → OrchWorld × Bool
  | 0, w => (w, false)
  | fuel + 1, w =>
    let w := match w.currentRes with
      | some addr => { w with pool := w.pool.markBlocked addr 0 }
      | none => w
    let nx := w.pool.next
    let w := { w with pool := nx.2 }
    let wn : OrchWorld × Option Resolver × Bool :=
      if nx.1.isNone || w.pool.isExhausted then
        if w.scannerEnabled then
          match w.scans with
          | [] => (w, none, true)
          | none :: rest => ({ w with scans := rest }, none, true)
          | some addrs :: rest =>
            let w' : OrchWorld := { w with scans := rest, pool := scanInto w.pool addrs }
            if addrs.isEmpty then (w', none, true)
            else (w', w'.pool.get, false)
        else (w, nx.1, false)
      else (w, nx.1, false)
    match wn with
    | (w, _, true) => (w, false)
    | (w, none, false) => (w, false)
    | (w, some r, false) =>
      match w.connects with
      | [] => (w, false)
      | o :: rest =>
        let w := { w with connects := rest }
        match o with
        | .startFail => handleDisconnect fuel w
        | .pollDead => handleDisconnect fuel { w with currentRes := some r.address }
        | .ok => ({ w with currentRes := some r.address, monitor := w.monitor.reset }, true)

/-! ## Operation sequences over the `resolver` pool, for the status
invariant. -/

/-- The mutating operations of `resolver.Pool` (`Get`/`GetHealthy`/`Count`/
`CountHealthy`/`IsExhausted`/`All` are pure reads; `AddMultiple` is a fold
of `Add`). -/
inductive RPoolOp where
  | add (address ty : String)
  | markBlocked (address : String) (now : Nat)
  | markHealthy (address : String) (latency now : Nat)
  | markFailed (address : String) (now : Nat)
  | next
  | clear
deriving DecidableEq, Repr

/-- Applies one `resolver.Pool` operation. -/
def Pool.applyOp (p : Pool) : RPoolOp → Pool
  | .add address ty => p.add address ty
  | .markBlocked address now => p.markBlocked address now
  | .markHealthy address latency now => p.markHealthy address latency now
  | .markFailed address now => p.markFailed address now
  | .next => (p.next).2
  | .clear => p.clear

/-- Runs a sequence of `resolver.Pool` operations. -/
def Pool.runOps (p : Pool) (ops : List RPoolOp) : Pool :=
  ops.foldl Pool.applyOp p

/-! # Theorems -/

/-! ## Helper lemmas about `updateFirst` -/

/-- `updateFirst` is the identity when no entry matches the address. -/
theorem updateFirst_eq_self (a : String) (f : Resolver → Resolver) :
    ∀ l : List Resolver, (∀ r ∈ l, r.address ≠ a) → updateFirst a f l = l := by
  intro l h
  induction l with
  | nil => rfl
  | cons r rest ih =>
    have hr : r.address ≠ a := h r (List.mem_cons_self r rest)
    simp only [updateFirst]
    rw [if_neg (by simpa using hr)]
    rw [ih (fun x hx => h x (List.mem_cons_of_mem r hx))]

/-- Every element of `updateFirst a f l` is an element of `l` or the image
under `f` of an element of `l`. -/
theorem mem_updateFirst (a : String) (f : Resolver → Resolver) :
    ∀ l : List Resolver, ∀ r ∈ updateFirst a f l, r ∈ l ∨ ∃ r0 ∈ l, r = f r0 := by
  intro l
  induction l with
  | nil => intro r hr; simp [updateFirst] at hr
  | cons x rest ih =>
    intro r hr
    simp only [updateFirst] at hr
    by_cases hx : x.address == a
    · rw [if_pos hx] at hr
      rcases List.mem_cons.mp hr with h | h
      · exact Or.inr ⟨x, List.mem_cons_self x rest, h⟩
      · exact Or.inl (List.mem_cons_of_mem x h)
    · rw [if_neg hx] at hr
      rcases List.mem_cons.mp hr with h | h
      · exact Or.inl (h ▸ List.mem_cons_self x rest)
      · rcases ih r h with h1 | ⟨r0, hr0, he⟩
        · exact Or.inl (List.mem_cons_of_mem x h1)
        · exact Or.inr ⟨r0, List.mem_cons_of_mem x hr0, he⟩

/-! ## C10 — unmatched mark operations are frame-preserving -/

/-- C10: for every pool state and every address `a` matching no resolver in
the pool, `MarkBlocked a`, `MarkHealthy a latency`, and `MarkFailed a` leave
the pool completely unchanged — every resolver's fields and the cursor keep
their values (the Go methods return no error to begin with). -/
theorem C10_theorem (p : Pool) (a : String) (latency now : Nat)
    (h : ∀ r ∈ p.resolvers, r.address ≠ a) :
    p.markBlocked a now = p ∧ p.markHealthy a latency now = p ∧ p.markFailed a now = p := by
  refine ⟨?_, ?_, ?_⟩ <;>
    simp [Pool.markBlocked, Pool.markHealthy, Pool.markFailed, updateFirst_eq_self a _ _ h]

/-- C10 witness: marking the absent address `1.1.1.1:53` in a one-resolver
pool changes nothing. -/
theorem C10_witness :
    (Pool.add Pool.new "8.8.8.8:53" "udp").markBlocked "1.1.1.1:53" 9 =
        Pool.add Pool.new "8.8.8.8:53" "udp" ∧
      (Pool.add Pool.new "8.8.8.8:53" "udp").markHealthy "1.1.1.1:53" 5 9 =
        Pool.add Pool.new "8.8.8.8:53" "udp" ∧
      (Pool.add Pool.new "8.8.8.8:53" "udp").markFailed "1.1.1.1:53" 9 =
        Pool.add Pool.new "8.8.8.8:53" "udp" :=
  C10_theorem (Pool.add Pool.new "8.8.8.8:53" "udp") "1.1.1.1:53" 5 9 (by decide)

/-! ## C4 — the healthy-status invariant -/

/-- C4 counterexample: one `MarkFailed` on a healthy resolver leaves
`status = healthy` with `fail_count = 1` (`MarkFailed` only demotes the
status once the count reaches 3), so `status = healthy ⟹ fail_count = 0`
is not an invariant of the pool operations. -/
theorem C4_counterexample :
    (((Pool.new.add "8.8.8.8:53" "udp").markHealthy "8.8.8.8:53" 5 1).markFailed
        "8.8.8.8:53" 2).resolvers.map (fun r => (r.status, r.failCount)) =
      [(.healthy, 1)] := by decide

/-- `Next` never changes the resolver list. -/
theorem next_resolvers (p : Pool) : (p.next).2.resolvers = p.resolvers := by
  unfold Pool.next
  split
  · rfl
  · split <;> rfl

/-- One pool operation preserves the (amended) healthy-status invariant. -/
theorem applyOp_preserves_healthyInv (p : Pool) (op : RPoolOp)
    (h : ∀ r ∈ p.resolvers, r.status = .healthy → r.failCount < 3 ∧ r.latency ≠ none) :
    ∀ r ∈ (p.applyOp op).resolvers, r.status = .healthy → r.failCount < 3 ∧ r.latency ≠ none := by
  cases op with
  | add address ty =>
    intro r hr hs
    simp only [Pool.applyOp, Pool.add] at hr
    split at hr
    · exact h r hr hs
    · rcases List.mem_append.mp hr with h1 | h1
      · exact h r h1 hs
      · simp at h1
        rw [h1] at hs
        exact absurd hs (by simp)
  | markBlocked address now =>
    intro r hr hs
    simp only [Pool.applyOp, Pool.markBlocked] at hr
    rcases mem_updateFirst _ _ _ r hr with h1 | ⟨r0, _, he⟩
    · exact h r h1 hs
    · rw [he] at hs
      exact absurd hs (by simp)
  | markHealthy address latency now =>
    intro r hr hs
    simp only [Pool.applyOp, Pool.markHealthy] at hr
    rcases mem_updateFirst _ _ _ r hr with h1 | ⟨r0, _, he⟩
    · exact h r h1 hs
    · rw [he]
      exact ⟨by simp, by simp⟩
  | markFailed address now =>
    intro r hr hs
    simp only [Pool.applyOp, Pool.markFailed] at hr
    rcases mem_updateFirst _ _ _ r hr with h1 | ⟨r0, hr0, he⟩
    · exact h r h1 hs
    · rw [he] at hs ⊢
      simp only at hs ⊢
      by_cases hfc : r0.failCount + 1 ≥ 3
      · rw [if_pos hfc] at hs
        exact absurd hs (by simp)
      · rw [if_neg hfc] at hs
        have := h r0 hr0 hs
        exact ⟨by omega, this.2⟩
  | next =>
    intro r hr hs
    rw [Pool.applyOp, next_resolvers] at hr
    exact h r hr hs
  | clear =>
    intro r hr
    simp [Pool.applyOp, Pool.clear] at hr

/-- C4: the claimed invariant `status = healthy ⟹ fail_count = 0` fails
(see the counterexample); what every sequence of pool operations from the
empty pool does preserve is `status = healthy ⟹ fail_count < 3 ∧ latency
set` — `MarkFailed` leaves a resolver healthy while its fail count is 1 or
2, and demotes it to degraded at 3. -/
theorem C4_theorem (ops : List RPoolOp) :
    ∀ r ∈ (Pool.runOps Pool.new ops).resolvers,
      r.status = .healthy → r.failCount < 3 ∧ r.latency ≠ none := by
  have main : ∀ (ops : List RPoolOp) (p : Pool),
      (∀ r ∈ p.resolvers, r.status = .healthy → r.failCount < 3 ∧ r.latency ≠ none) →
      ∀ r ∈ (Pool.runOps p ops).resolvers,
        r.status = .healthy → r.failCount < 3 ∧ r.latency ≠ none := by
    intro ops
    induction ops with
    | nil => intro p hp; exact hp
    | cons op rest ih =>
      intro p hp
      exact ih (p.applyOp op) (applyOp_preserves_healthyInv p op hp)
  exact main ops Pool.new (by intro r hr; simp [Pool.new] at hr)

/-- C4 witness: after an add and a mark-healthy the (sole) healthy resolver
has fail count below 3 and a recorded latency. -/
theorem C4_witness :
    (⟨"8.8.8.8:53", "udp", .healthy, some 1, 0, some 5, none⟩ : Resolver).failCount < 3 ∧
      (⟨"8.8.8.8:53", "udp", .healthy, some 1, 0, some 5, none⟩ : Resolver).latency ≠ none :=
  C4_theorem [.add "8.8.8.8:53" "udp", .markHealthy "8.8.8.8:53" 5 1]
    ⟨"8.8.8.8:53", "udp", .healthy, some 1, 0, some 5, none⟩ (by decide) rfl

/-! ## Helper lemmas about the `pool`-package pool (`PPool`) -/

/-- The `Next` scan only ever selects a non-blocked entry. -/
theorem pNextScan_not_blocked (rs : List PResolver) (blocked : List String) (startIdx : Nat) :
    ∀ fuel i idx, pNextScan rs blocked startIdx fuel i = some idx →
      ∃ r, rs.get? idx = some r ∧ blocked.contains r.ip = false := by
  intro fuel
  induction fuel with
  | zero => intro i idx h; simp [pNextScan] at h
  | succ fuel ih =>
    intro i idx h
    simp only [pNextScan] at h
    cases hg : rs.get? ((startIdx + 1 + i) % rs.length) with
    | none => rw [hg] at h; exact absurd h (by simp)
    | some r =>
      rw [hg] at h
      simp only at h
      by_cases hb : blocked.contains r.ip
      · rw [if_pos (by simpa using hb)] at h
        exact ih (i + 1) idx h
      · rw [if_neg (by simpa using hb)] at h
        have : idx = (startIdx + 1 + i) % rs.length := by
          simpa using h.symm
        subst this
        exact ⟨r, hg, by simpa using hb⟩

/-- When every resolver is blocked, the `Next` scan finds nothing. -/
theorem pNextScan_all_blocked (rs : List PResolver) (blocked : List String) (startIdx : Nat)
    (hall : ∀ r ∈ rs, blocked.contains r.ip = true) :
    ∀ fuel i, pNextScan rs blocked startIdx fuel i = none := by
  intro fuel
  induction fuel with
  | zero => intro i; rfl
  | succ fuel ih =>
    intro i
    simp only [pNextScan]
    cases hg : rs.get? ((startIdx + 1 + i) % rs.length) with
    | none => simp
    | some r =>
      simp only
      rw [hall r (List.get?_mem hg)]
      simp only [if_true]
      exact ih (i + 1)

/-- A resolver returned by `Next` is never blocked. -/
theorem PPool.next_fst_not_blocked (p : PPool) (r : PResolver) (h : (p.next).1 = some r) :
    p.blocked.contains r.ip = false := by
  unfold PPool.next at h
  split at h
  · exact absurd h (by simp)
  · cases hs : pNextScan p.resolvers p.blocked p.current p.resolvers.length 0 with
    | none => rw [hs] at h; exact absurd h (by simp)
    | some idx =>
      rw [hs] at h
      obtain ⟨r0, hg, hb⟩ := pNextScan_not_blocked _ _ _ _ _ _ hs
      simp only at h
      rw [hg] at h
      cases h
      exact hb

/-- A resolver returned by `Current` is never blocked. -/
theorem PPool.currentRes_not_blocked (p : PPool) (r : PResolver) (h : p.currentRes = some r) :
    p.blocked.contains r.ip = false := by
  unfold PPool.currentRes at h
  split at h
  · exact absurd h (by simp)
  · cases hg : p.resolvers.get? p.current with
    | none =>
      rw [hg] at h
      simp only at h
      have := List.find?_some h
      simpa using this
    | some r0 =>
      rw [hg] at h
      simp only at h
      by_cases hb : p.blocked.contains r0.ip
      · rw [if_pos hb] at h
        simp only at h
        have := List.find?_some h
        simpa using this
      · rw [if_neg hb] at h
        simp only at h
        cases h
        simpa using hb

/-- `Next` never changes the blocked set. -/
theorem PPool.next_snd_blocked (p : PPool) : (p.next).2.blocked = p.blocked := by
  unfold PPool.next
  split
  · rfl
  · split <;> rfl

/-- Once an IP is in the blocked set, every non-reset operation keeps it
there. -/
theorem PPool.applyOp_blocked_mono (p : PPool) (op : POp) (a : String)
    (h : a ∈ p.blocked) : a ∈ (p.applyOp op).blocked := by
  cases op with
  | markBlocked ip =>
    simp only [PPool.applyOp, PPool.markBlocked]
    split
    · exact h
    · exact List.mem_cons_of_mem ip h
  | next =>
    rw [PPool.applyOp, PPool.next_snd_blocked]
    exact h

/-- Once an IP is in the blocked set, any sequence of non-reset operations
keeps it there. -/
theorem PPool.run_blocked_mono (a : String) :
    ∀ (ops : List POp) (p : PPool), a ∈ p.blocked → a ∈ (p.run ops).blocked := by
  intro ops
  induction ops with
  | nil => intro p h; exact h
  | cons op rest ih =>
    intro p h
    exact ih (p.applyOp op) (PPool.applyOp_blocked_mono p op a h)

/-- `MarkBlocked` puts the IP into the blocked set. -/
theorem PPool.markBlocked_mem (p : PPool) (a : String) : a ∈ (p.markBlocked a).blocked := by
  unfold PPool.markBlocked
  split
  · next hc => simpa using hc
  · exact List.mem_cons_self a p.blocked

/-! ## C1 — exhaustion and blocking versus `advance` -/

/-- C1 counterexample: in the `resolver.Pool` implementation the application
actually uses, `Next` on an exhausted pool does *not* return `∅` — after
`MarkBlocked` of the only resolver (so the pool is exhausted), `Next`
returns that blocked resolver (pool.go line 116 returns the entry at the
wrapped-around cursor even when blocked), which also violates the claim that
a blocked address is never returned again. -/
theorem C1_counterexample :
    ((Pool.add Pool.new "8.8.8.8:53" "udp").markBlocked "8.8.8.8:53" 7).isExhausted = true ∧
      ((((Pool.add Pool.new "8.8.8.8:53" "udp").markBlocked "8.8.8.8:53" 7).next).1.map
          Resolver.address) = some "8.8.8.8:53" := by decide

/-- C1 (amended): the claimed behaviour is that of the `pool`-package
implementation (`src/unnamed/part_002`): there, `Next` returns `∅` whenever
the pool is exhausted, and once `MarkBlocked a` has run, no subsequent
`Current` or `Next` — through any sequence of further `MarkBlocked`/`Next`
operations short of a state reset — returns a resolver with IP `a`.  In the
`resolver.Pool` implementation, `Next` on an exhausted pool instead returns
the blocked resolver at the wrapped cursor. -/
theorem C1_theorem :
    (∀ p : PPool, p.isExhausted = true → (p.next).1 = none) ∧
      (∀ (p : PPool) (a : String) (ops : List POp),
        (∀ r, ((p.markBlocked a).run ops).currentRes = some r → r.ip ≠ a) ∧
          (∀ r, ((((p.markBlocked a).run ops)).next).1 = some r → r.ip ≠ a)) := by
  constructor
  · intro p hex
    have hall : ∀ r ∈ p.resolvers, p.blocked.contains r.ip = true := by
      intro r hr
      exact List.all_eq_true.mp hex r hr
    unfold PPool.next
    split
    · rfl
    · rw [pNextScan_all_blocked _ _ _ hall _ _]
  · intro p a ops
    have hmem : a ∈ ((p.markBlocked a).run ops).blocked :=
      PPool.run_blocked_mono a ops _ (PPool.markBlocked_mem p a)
    constructor
    · intro r hr hip
      have hnb := PPool.currentRes_not_blocked _ _ hr
      rw [hip] at hnb
      simp at hnb
      exact hnb hmem
    · intro r hr hip
      have hnb := PPool.next_fst_not_blocked _ _ hr
      rw [hip] at hnb
      simp at hnb
      exact hnb hmem

/-- C1 witness: a concrete exhausted pool yields `∅` from `Next`, and after
blocking `8.8.8.8` in a two-resolver pool, the resolver that a subsequent
`Next`-then-`Current` returns is not `8.8.8.8`. -/
theorem C1_witness :
    ((⟨[⟨"8.8.8.8", 53, "udp", ""⟩], ["8.8.8.8"], 0⟩ : PPool).next).1 = none ∧
      (⟨"1.1.1.1", 53, "udp", ""⟩ : PResolver).ip ≠ "8.8.8.8" := by
  constructor
  · exact C1_theorem.1 ⟨[⟨"8.8.8.8", 53, "udp", ""⟩], ["8.8.8.8"], 0⟩ (by decide)
  · exact (C1_theorem.2 ⟨[⟨"8.8.8.8", 53, "udp", ""⟩, ⟨"1.1.1.1", 53, "udp", ""⟩], [], 0⟩
      "8.8.8.8" [.next]).1 ⟨"1.1.1.1", 53, "udp", ""⟩ (by decide)

/-! ## C2 — what `current()` returns -/

/-- C2 counterexample: in the `resolver.Pool` implementation, `Get` (the
`current()` accessor) returns the entry at the cursor with no status check:
on a pool whose only resolver is blocked (exhausted), it returns that
blocked resolver instead of the claimed `∅`. -/
theorem C2_counterexample :
    ((Pool.add Pool.new "8.8.8.8:53" "udp").markBlocked "8.8.8.8:53" 7).isExhausted = true ∧
      (((Pool.add Pool.new "8.8.8.8:53" "udp").markBlocked "8.8.8.8:53" 7).get.map
          Resolver.address) = some "8.8.8.8:53" := by decide

/-- C2 (amended): the claimed behaviour is that of `pool.Pool.Current`
(`src/unnamed/part_002`): the cursor entry when it is not blocked, otherwise
the first non-blocked resolver scanning from index 0, and `∅` when every
resolver is blocked.  `resolver.Pool.Get` instead returns the entry at the
cursor regardless of its status. -/
theorem C2_theorem :
    (∀ (p : PPool) (r : PResolver), p.resolvers.get? p.current = some r →
        p.blocked.contains r.ip = false → p.currentRes = some r) ∧
      (∀ p : PPool, p.resolvers ≠ [] →
        (∀ r, p.resolvers.get? p.current = some r → p.blocked.contains r.ip = true) →
        p.currentRes = p.resolvers.find? (fun r => !(p.blocked.contains r.ip))) ∧
      (∀ p : PPool, p.isExhausted = true → p.currentRes = none) ∧
      (∀ p : Pool, p.resolvers.isEmpty = false → p.get = p.resolvers.get? p.current) := by
  refine ⟨?_, ?_, ?_, ?_⟩
  · intro p r hg hb
    have hne : p.resolvers.isEmpty = false := by
      cases hl : p.resolvers with
      | nil => rw [hl] at hg; simp at hg
      | cons x xs => simp [hl]
    rw [List.get?_eq_getElem?] at hg
    have hb' : r.ip ∉ p.blocked := by simpa using hb
    simp [PPool.currentRes, hne, hg, hb']
  · intro p hne hall
    have hne' : p.resolvers.isEmpty = false := by simpa using hne
    unfold PPool.currentRes
    rw [hne']
    simp only [Bool.false_eq_true, if_false]
    cases hg : p.resolvers.get? p.current with
    | none => simp only
    | some r =>
      have hb := hall r hg
      simp only
      rw [if_pos hb]
  · intro p hex
    have hall : ∀ r ∈ p.resolvers, p.blocked.contains r.ip = true := fun r hr =>
      List.all_eq_true.mp hex r hr
    have hfind : p.resolvers.find? (fun r => !(p.blocked.contains r.ip)) = none := by
      rw [List.find?_eq_none]
      intro x hx
      simpa using hall x hx
    unfold PPool.currentRes
    split
    · rfl
    · cases hg : p.resolvers.get? p.current with
      | none =>
        simp only
        exact hfind
      | some r =>
        have hb := hall r (List.get?_mem hg)
        simp only
        rw [if_pos hb]
        exact hfind
  · intro p hne
    simp [Pool.get, hne]

/-- C2 witness: in a concrete two-resolver pool with the first IP blocked
and the cursor on it, `Current` falls back to the scan from index 0; on a
concrete exhausted pool it returns `∅`; and a concrete non-blocked cursor
entry is returned as-is. -/
theorem C2_witness :
    (⟨[⟨"8.8.8.8", 53, "udp", ""⟩], [], 0⟩ : PPool).currentRes =
        some ⟨"8.8.8.8", 53, "udp", ""⟩ ∧
      (⟨[⟨"8.8.8.8", 53, "udp", ""⟩, ⟨"1.1.1.1", 53, "udp", ""⟩], ["8.8.8.8"], 0⟩ : PPool).currentRes =
        ([⟨"8.8.8.8", 53, "udp", ""⟩, ⟨"1.1.1.1", 53, "udp", ""⟩] : List PResolver).find?
          (fun r => !((["8.8.8.8"] : List String).contains r.ip)) ∧
      (⟨[⟨"8.8.8.8", 53, "udp", ""⟩], ["8.8.8.8"], 0⟩ : PPool).currentRes = none ∧
      (Pool.add Pool.new "8.8.8.8:53" "udp").get =
        (Pool.add Pool.new "8.8.8.8:53" "udp").resolvers.get?
          (Pool.add Pool.new "8.8.8.8:53" "udp").current := by
  refine ⟨?_, ?_, ?_, ?_⟩
  · exact C2_theorem.1 _ _ rfl (by decide)
  · exact C2_theorem.2.1 _ (by decide) (by decide)
  · exact C2_theorem.2.2.1 _ (by decide)
  · exact C2_theorem.2.2.2 _ (by decide)

/-! ## C3 — the shape of the SOCKS5 health probe -/

/-- C3 counterexample: the probe is not greeting-only and its success is not
`reply byte 0 = 0x05`.  First conjunct: on a fully successful exchange the
probe writes the CONNECT request `05 01 00 01 08 08 08 08 00 35` after the
greeting — it does go through the tunnel.  Second conjunct: a greeting reply
`05 FF` has byte 0 = `0x05` and the read succeeded (success per the claim),
yet the probe fails (monitor.go lines 163-165 reject auth method `0xFF`). -/
theorem C3_counterexample :
    (testSOCKS5Connection
          ⟨true, true, some [0x05, 0x00], true, some [0x05, 0, 0, 1, 0, 0, 0, 0, 0, 0]⟩).sent =
        [socksGreeting, socksConnectReq] ∧
      (testSOCKS5Connection ⟨true, true, some [0x05, 0xFF], true, none⟩).ok = false := by
  decide

/-- C3 (amended): the per-interval probe opens TCP to the local proxy and
sends the greeting `05 01 00`, but it does not stop there: it requires the
two-byte reply to have byte 0 = `0x05` *and* byte 1 ≠ `0xFF`, then sends a
SOCKS5 CONNECT request for 8.8.8.8:53 through the tunnel and reads ten
bytes, succeeding iff that reply has byte 0 = `0x05` and result code
byte 1 = `0x00`.  Every successful probe has written exactly the greeting
followed by the CONNECT request. -/
theorem C3_theorem (env : SocksEnv) :
    ((testSOCKS5Connection env).ok = true ↔
        env.dialOk = true ∧ env.write1Ok = true ∧
          (∃ b1, env.reply1 = some b1 ∧ b1.get? 0 = some 0x05 ∧ b1.get? 1 ≠ some 0xFF) ∧
          env.write2Ok = true ∧
          (∃ b2, env.reply2 = some b2 ∧ b2.get? 0 = some 0x05 ∧ b2.get? 1 = some 0x00)) ∧
      ((testSOCKS5Connection env).ok = true →
        (testSOCKS5Connection env).sent = [socksGreeting, socksConnectReq]) := by
  obtain ⟨d, w1, r1, w2, r2⟩ := env
  simp only [testSOCKS5Connection]
  cases d <;> cases w1 <;> cases w2 <;> cases r1 <;> cases r2 <;>
    simp <;> split_ifs <;> simp_all

/-- C3 witness: on a concrete successful exchange, the probe's transcript is
exactly the greeting then the CONNECT request. -/
theorem C3_witness :
    (testSOCKS5Connection
        ⟨true, true, some [0x05, 0x00], true, some [0x05, 0, 0, 1, 127, 0, 0, 1, 0, 53]⟩).sent =
      [socksGreeting, socksConnectReq] :=
  (C3_theorem ⟨true, true, some [0x05, 0x00], true, some [0x05, 0, 0, 1, 127, 0, 0, 1, 0, 53]⟩).2
    (by decide)

/-! ## Monitor hysteresis step lemmas -/

/-- A failed check on the fresh monitor: straight to unhealthy (with the one
emission) when the threshold is 1, else to degraded. -/
theorem handleFailure_new (cfg : HealthConfig) :
    Monitor.handleFailure cfg Monitor.new =
      if (1 : Int) ≥ cfg.failThreshold then ⟨.unhealthy, 1, true, false, 1, 0⟩
      else ⟨.degraded, 1, false, false, 0, 0⟩ := by
  unfold Monitor.handleFailure Monitor.new slotSend
  by_cases hft : (1 : Int) ≥ cfg.failThreshold
  · rw [if_pos hft]
    simp only
    rw [if_pos (by simpa using hft)]
    simp [hft]
  · rw [if_neg hft]
    simp only
    rw [if_neg (by simpa using hft)]
    simp [hft]

/-- A failed check below the threshold keeps the monitor degraded and counts
it. -/
theorem handleFailure_degraded (cfg : HealthConfig) (c : Int)
    (hc : c + 1 < cfg.failThreshold) :
    Monitor.handleFailure cfg ⟨.degraded, c, false, false, 0, 0⟩ =
      ⟨.degraded, c + 1, false, false, 0, 0⟩ := by
  unfold Monitor.handleFailure
  simp only
  rw [if_neg (by omega)]
  simp

/-- The failed check that reaches the threshold flips the monitor to
unhealthy and performs the one non-blocking emission. -/
theorem handleFailure_trip (cfg : HealthConfig) (c : Int)
    (hc : c + 1 ≥ cfg.failThreshold) :
    Monitor.handleFailure cfg ⟨.degraded, c, false, false, 0, 0⟩ =
      ⟨.unhealthy, c + 1, true, false, 1, 0⟩ := by
  unfold Monitor.handleFailure slotSend
  simp only
  rw [if_pos (by omega)]
  simp

/-- A failed check on an already-unhealthy monitor only counts: no further
emission. -/
theorem handleFailure_unhealthy (cfg : HealthConfig) (c : Int)
    (hc : c + 1 ≥ cfg.failThreshold) :
    Monitor.handleFailure cfg ⟨.unhealthy, c, true, false, 1, 0⟩ =
      ⟨.unhealthy, c + 1, true, false, 1, 0⟩ := by
  unfold Monitor.handleFailure
  simp only
  rw [if_pos (by omega)]
  simp

/-- A successful check while unhealthy, short of the recovery threshold:
just counts down. -/
theorem handleSuccess_countdown (cfg : HealthConfig) (c : Int)
    (hc : -cfg.recoveryThreshold < c - 1) :
    Monitor.handleSuccess cfg ⟨.unhealthy, c, true, false, 1, 0⟩ =
      ⟨.unhealthy, c - 1, true, false, 1, 0⟩ := by
  unfold Monitor.handleSuccess
  rw [if_pos (by simp)]
  simp only
  rw [if_neg (by omega)]

/-- The successful check that reaches the recovery threshold restores
healthy, clears the counter, and emits on the healthy slot. -/
theorem handleSuccess_recover (cfg : HealthConfig) (c : Int)
    (hc : c - 1 ≤ -cfg.recoveryThreshold) :
    Monitor.handleSuccess cfg ⟨.unhealthy, c, true, false, 1, 0⟩ =
      ⟨.healthy, 0, true, true, 1, 1⟩ := by
  unfold Monitor.handleSuccess slotSend
  rw [if_pos (by simp)]
  simp only
  rw [if_pos (by omega)]
  simp

/-- Closed form of the monitor state after `j` consecutive failures from the
fresh state: degraded with counter `j` strictly below the threshold, then
unhealthy with exactly one emission from the threshold on. -/
theorem failures_state (cfg : HealthConfig) (h1 : 1 ≤ cfg.failThreshold) :
    ∀ j : Nat, Monitor.failures cfg Monitor.new j =
      if j = 0 then Monitor.new
      else if (j : Int) < cfg.failThreshold then ⟨.degraded, (j : Int), false, false, 0, 0⟩
      else ⟨.unhealthy, (j : Int), true, false, 1, 0⟩ := by
  intro j
  induction j with
  | zero => rfl
  | succ j ih =>
    rw [Monitor.failures, ih]
    rcases Nat.eq_zero_or_pos j with hj0 | hjpos
    · subst hj0
      rw [if_pos rfl, handleFailure_new]
      by_cases hft : (1 : Int) ≥ cfg.failThreshold
      · rw [if_pos hft, if_neg (by omega), if_neg (by push_cast; omega)]
        norm_num
      · rw [if_neg hft, if_neg (by omega), if_pos (by push_cast; omega)]
        norm_num
    · rw [if_neg (by omega)]
      by_cases hlt : ((j : Int)) < cfg.failThreshold
      · rw [if_pos hlt]
        by_cases hlt' : ((j : Int) + 1) < cfg.failThreshold
        · rw [handleFailure_degraded cfg _ hlt', if_neg (by omega), if_pos (by push_cast; omega)]
          push_cast
          rfl
        · rw [handleFailure_trip cfg _ (by omega), if_neg (by omega),
            if_neg (by push_cast; omega)]
          push_cast
          rfl
      · rw [if_neg hlt, handleFailure_unhealthy cfg _ (by omega), if_neg (by omega),
          if_neg (by push_cast; omega)]
        push_cast
        rfl

/-- Closed form of the count-down: `k` successes on an unhealthy monitor
short of the recovery point just decrement the counter. -/
theorem successes_countdown (cfg : HealthConfig) (c : Int) :
    ∀ k : Nat, (k : Int) < c + cfg.recoveryThreshold →
      Monitor.successes cfg ⟨.unhealthy, c, true, false, 1, 0⟩ k =
        ⟨.unhealthy, c - k, true, false, 1, 0⟩ := by
  intro k
  induction k with
  | zero => intro _; simp [Monitor.successes]
  | succ k ih =>
    intro hk
    rw [Monitor.successes, ih (by push_cast at hk ⊢; omega),
      handleSuccess_countdown cfg _ (by push_cast at hk ⊢; omega)]
    have harith : c - (k : Int) - 1 = c - ((k + 1 : Nat) : Int) := by push_cast; ring
    rw [harith]

/-! ## C5 — exactly one unhealthy emission at the threshold -/

/-- C5: from the fresh monitor (`c = 0`, healthy), the `on_unhealthy`
one-slot channel has seen no emission strictly below `fail_threshold`
consecutive failures, exactly one at the `fail_threshold`-th failure (where
the status flips to unhealthy), and still exactly one after any number of
further consecutive failures. -/
theorem C5_theorem (cfg : HealthConfig) (h1 : 1 ≤ cfg.failThreshold) :
    (∀ j : Nat, (j : Int) < cfg.failThreshold →
        (Monitor.failures cfg Monitor.new j).unhealthyEmits = 0) ∧
      (Monitor.failures cfg Monitor.new cfg.failThreshold.toNat).status = .unhealthy ∧
      (∀ k : Nat,
        (Monitor.failures cfg Monitor.new (cfg.failThreshold.toNat + k)).unhealthyEmits = 1) := by
  refine ⟨?_, ?_, ?_⟩
  · intro j hj
    rw [failures_state cfg h1 j]
    by_cases hj0 : j = 0
    · simp [hj0, Monitor.new]
    · rw [if_neg hj0, if_pos hj]
  · rw [failures_state cfg h1 _, if_neg (by omega), if_neg (by omega)]
  · intro k
    rw [failures_state cfg h1 _, if_neg (by omega), if_neg (by push_cast; omega)]

/-- C5 witness at the default thresholds (`fail_threshold = 2`): no emission
after 1 failure, unhealthy with one emission at 2, still one at 3. -/
theorem C5_witness :
    (Monitor.failures ⟨2, 1⟩ Monitor.new 1).unhealthyEmits = 0 ∧
      (Monitor.failures ⟨2, 1⟩ Monitor.new 2).status = .unhealthy ∧
      (Monitor.failures ⟨2, 1⟩ Monitor.new 3).unhealthyEmits = 1 :=
  ⟨(C5_theorem ⟨2, 1⟩ (by decide)).1 1 (by decide), (C5_theorem ⟨2, 1⟩ (by decide)).2.1,
    (C5_theorem ⟨2, 1⟩ (by decide)).2.2 1⟩

/-! ## C6 — the failure/recovery round trip -/

/-- C6: `fail_threshold` consecutive failures followed by `fail_threshold +
recovery_threshold` consecutive successes restore `status = healthy` and
leave the hysteresis counter at 0. -/
theorem C6_theorem (cfg : HealthConfig) (h1 : 1 ≤ cfg.failThreshold)
    (h2 : 1 ≤ cfg.recoveryThreshold) :
    (Monitor.successes cfg (Monitor.failures cfg Monitor.new cfg.failThreshold.toNat)
        (cfg.failThreshold.toNat + cfg.recoveryThreshold.toNat)).status = .healthy ∧
      (Monitor.successes cfg (Monitor.failures cfg Monitor.new cfg.failThreshold.toNat)
        (cfg.failThreshold.toNat + cfg.recoveryThreshold.toNat)).failCount = 0 := by
  have hm1 : Monitor.failures cfg Monitor.new cfg.failThreshold.toNat =
      ⟨.unhealthy, cfg.failThreshold, true, false, 1, 0⟩ := by
    rw [failures_state cfg h1 _, if_neg (by omega), if_neg (by omega)]
    have : ((cfg.failThreshold.toNat : Int)) = cfg.failThreshold := by omega
    rw [this]
  rw [hm1]
  obtain ⟨n, hn⟩ : ∃ n, cfg.failThreshold.toNat + cfg.recoveryThreshold.toNat = n + 1 :=
    ⟨cfg.failThreshold.toNat + cfg.recoveryThreshold.toNat - 1, by omega⟩
  rw [hn, Monitor.successes, successes_countdown cfg _ n (by omega),
    handleSuccess_recover cfg _ (by omega)]
  exact ⟨rfl, rfl⟩

/-- C6 witness at the default thresholds: 2 failures then 3 successes land
back at healthy with a cleared counter. -/
theorem C6_witness :
    (Monitor.successes ⟨2, 1⟩ (Monitor.failures ⟨2, 1⟩ Monitor.new 2) 3).status = .healthy ∧
      (Monitor.successes ⟨2, 1⟩ (Monitor.failures ⟨2, 1⟩ Monitor.new 2) 3).failCount = 0 :=
  C6_theorem ⟨2, 1⟩ (by decide) (by decide)

/-! ## C7 — `reset()` and its invocation after every successful reconnect -/

/-- C7: `Monitor.Reset` (modelled from the spec, being invoked by
`App.handleDisconnect` but absent from the provided monitor source) forces
`status = healthy` and `c = 0`; and whenever the orchestrator's reconnect
routine reports a successful reconnect, it has invoked the reset as its last
monitor action, so the resulting monitor state is healthy with a zero
counter — through any oracle of scan results and connect outcomes, any
recursion depth, and any starting world. -/
theorem C7_theorem :
    (∀ m : Monitor, m.reset.status = .healthy ∧ m.reset.failCount = 0) ∧
      (∀ (fuel : Nat) (w : OrchWorld) (res : OrchWorld × Bool),
        handleDisconnect fuel w = res → res.2 = true →
        res.1.monitor.status = .healthy ∧ res.1.monitor.failCount = 0) := by
  constructor
  · intro m
    exact ⟨rfl, rfl⟩
  · intro fuel
    induction fuel with
    | zero =>
      intro w res hres hb
      rw [handleDisconnect] at hres
      rw [← hres] at hb
      simp at hb
    | succ fuel ih =>
      intro w res hres hb
      rw [handleDisconnect] at hres
      repeat' split at hres
      all_goals
        first
          | (exact ih _ res hres hb)
          | (rw [← hres]; exact ⟨rfl, rfl⟩)
          | (rw [← hres] at hb; simp at hb)

/-- C7 witness: a concrete one-step reconnect (two-resolver pool, the
current one gets blocked, the next connect succeeds) ends with the monitor
reset to healthy and counter 0. -/
theorem C7_witness :
    (handleDisconnect 1
        ⟨⟨[⟨"8.8.8.8:53", "udp", .unknown, none, 0, none, none⟩,
            ⟨"1.1.1.1:53", "udp", .unknown, none, 0, none, none⟩], 0⟩,
          some "8.8.8.8:53", ⟨.unhealthy, 2, true, false, 1, 0⟩, true, [],
          [.ok]⟩).1.monitor.status = .healthy ∧
      (handleDisconnect 1
        ⟨⟨[⟨"8.8.8.8:53", "udp", .unknown, none, 0, none, none⟩,
            ⟨"1.1.1.1:53", "udp", .unknown, none, 0, none, none⟩], 0⟩,
          some "8.8.8.8:53", ⟨.unhealthy, 2, true, false, 1, 0⟩, true, [],
          [.ok]⟩).1.monitor.failCount = 0 :=
  C7_theorem.2 1
    ⟨⟨[⟨"8.8.8.8:53", "udp", .unknown, none, 0, none, none⟩,
        ⟨"1.1.1.1:53", "udp", .unknown, none, 0, none, none⟩], 0⟩,
      some "8.8.8.8:53", ⟨.unhealthy, 2, true, false, 1, 0⟩, true, [], [.ok]⟩
    _ rfl (by decide)

/-! ## C8 — when the supervisor's connect fails -/

/-- The readiness poll loop errors exactly when, scanning from poll `i`, the
child is observed dead strictly before any successful dial and within the
window. -/
theorem connectPoll_error_iff (alive dialOk : Nat → Bool) :
    ∀ (fuel i : Nat), (∃ e, connectPoll alive dialOk i fuel = .error e) ↔
      ∃ k, k < fuel ∧ (∀ j, j < k → alive (i + j) = true ∧ dialOk (i + j) = false) ∧
        alive (i + k) = false := by
  intro fuel
  induction fuel with
  | zero =>
    intro i
    simp [connectPoll]
  | succ fuel ih =>
    intro i
    simp only [connectPoll]
    by_cases ha : alive i
    · rw [if_neg (by simp [ha])]
      by_cases hd : dialOk i
      · rw [if_pos hd]
        constructor
        · rintro ⟨e, he⟩
          exact absurd he (by simp)
        · rintro ⟨k, hk, hprev, hdead⟩
          rcases Nat.eq_zero_or_pos k with rfl | hkpos
          · rw [Nat.add_zero] at hdead
            exact absurd hdead (by simp [ha])
          · have h0 := hprev 0 hkpos
            rw [Nat.add_zero] at h0
            exact absurd h0.2 (by simp [hd])
      · rw [if_neg hd]
        rw [ih (i + 1)]
        constructor
        · rintro ⟨k, hk, hprev, hdead⟩
          refine ⟨k + 1, by omega, ?_, ?_⟩
          · intro j hj
            cases j with
            | zero => exact ⟨by simpa using ha, by simpa using hd⟩
            | succ j' =>
              have harg : i + (j' + 1) = i + 1 + j' := by omega
              rw [harg]
              exact hprev j' (by omega)
          · have harg : i + (k + 1) = i + 1 + k := by omega
            rw [harg]
            exact hdead
        · rintro ⟨k, hk, hprev, hdead⟩
          cases k with
          | zero =>
            rw [Nat.add_zero] at hdead
            exact absurd hdead (by simp [ha])
          | succ k' =>
            refine ⟨k', by omega, ?_, ?_⟩
            · intro j hj
              have harg : i + 1 + j = i + (j + 1) := by omega
              rw [harg]
              exact hprev (j + 1) (by omega)
            · have harg : i + 1 + k' = i + (k' + 1) := by omega
              rw [harg]
              exact hdead
    · rw [if_pos (by simp [ha])]
      constructor
      · intro _
        exact ⟨0, by omega, fun j hj => absurd hj (Nat.not_lt_zero j),
          by rw [Nat.add_zero]; simpa using ha⟩
      · intro _
        exact ⟨_, rfl⟩

/-- C8: `Manager.Connect` returns an error iff `cmd.Start()` failed or the
child process was observed dead during the 20-attempt readiness poll (before
any poll saw the port open); in particular, when the whole window elapses
with the child alive — whether or not the port ever opened — connect returns
success. -/
theorem C8_theorem (startOk : Bool) (alive dialOk : Nat → Bool) :
    ((∃ e, managerConnect startOk alive dialOk = .error e) ↔
        startOk = false ∨
          ∃ k, k < 20 ∧ (∀ j, j < k → alive j = true ∧ dialOk j = false) ∧ alive k = false) ∧
      (startOk = true → (∀ i, i < 20 → alive i = true) →
        managerConnect startOk alive dialOk = .ok ()) := by
  constructor
  · constructor
    · rintro ⟨e, he⟩
      unfold managerConnect at he
      by_cases hs : startOk = true
      · rw [if_neg (by simp [hs])] at he
        right
        cases hp : connectPoll alive dialOk 0 20 with
        | ok b => rw [hp] at he; exact absurd he (by simp)
        | error e2 =>
          have hiff := (connectPoll_error_iff alive dialOk 20 0).mp ⟨e2, hp⟩
          simpa using hiff
      · left
        simpa using hs
    · intro h
      unfold managerConnect
      by_cases hs : startOk = true
      · rcases h with h | hex
        · rw [hs] at h; exact absurd h (by simp)
        · rw [if_neg (by simp [hs])]
          have hpoll := (connectPoll_error_iff alive dialOk 20 0).mpr (by simpa using hex)
          rcases hpoll with ⟨e, hp⟩
          rw [hp]
          exact ⟨e, rfl⟩
      · rw [if_pos (by simpa using hs)]
        exact ⟨_, rfl⟩
  · intro hs hal
    unfold managerConnect
    rw [if_neg (by simp [hs])]
    cases hp : connectPoll alive dialOk 0 20 with
    | ok b => rfl
    | error e =>
      have hiff := (connectPoll_error_iff alive dialOk 20 0).mp ⟨e, hp⟩
      rcases hiff with ⟨k, hk, _, hdead⟩
      rw [Nat.zero_add] at hdead
      exact absurd (hal k hk) (by simp [hdead])

/-- C8 witness: the window elapsing with the child alive and the port never
opening still yields success. -/
theorem C8_witness :
    managerConnect true (fun _ => true) (fun _ => false) = .ok () :=
  (C8_theorem true (fun _ => true) (fun _ => false)).2 rfl (fun _ _ => rfl)

/-! ## C9 — country-feed parsing -/

/-- A blank or comment line contributes no candidate. -/
theorem lineCandidate_skip (line : List Char)
    (h : ((trimCh line).isEmpty || ((trimCh line).head? == some '#')) = true) :
    lineCandidate line = none := by
  unfold lineCandidate
  rw [if_pos h]

/-- A line whose `extractFirstIP` is empty contributes no candidate. -/
theorem lineCandidate_noip (line : List Char)
    (h : ((trimCh line).isEmpty || ((trimCh line).head? == some '#')) = false)
    (hip : extractFirstIP (trimCh line) = "") :
    lineCandidate line = none := by
  unfold lineCandidate
  rw [if_neg (by simp [h]), if_pos (by simp [hip])]

/-- A line whose `extractFirstIP` is non-empty contributes `ip ++ ":53"`. -/
theorem lineCandidate_ip (line : List Char)
    (h : ((trimCh line).isEmpty || ((trimCh line).head? == some '#')) = false)
    (hip : extractFirstIP (trimCh line) ≠ "") :
    lineCandidate line = some (extractFirstIP (trimCh line) ++ ":53") := by
  unfold lineCandidate
  rw [if_neg (by simp [h]), if_neg (by simpa using hip)]

/-- The parse loop skips a blank or comment line. -/
theorem parseCIDRgo_skip (maxC : Int) (line : List Char) (rest : List (List Char)) (count : Nat)
    (h : ((trimCh line).isEmpty || ((trimCh line).head? == some '#')) = true) :
    parseCIDRgo maxC (line :: rest) count = parseCIDRgo maxC rest count := by
  conv_lhs => rw [parseCIDRgo]
  rw [if_pos h]

/-- The parse loop on a line with no usable IP: nothing is appended and the
truncation check runs on the unchanged count. -/
theorem parseCIDRgo_noip (maxC : Int) (line : List Char) (rest : List (List Char)) (count : Nat)
    (h : ((trimCh line).isEmpty || ((trimCh line).head? == some '#')) = false)
    (hip : extractFirstIP (trimCh line) = "") :
    parseCIDRgo maxC (line :: rest) count =
      if (decide (maxC > 0) && decide ((count : Int) ≥ maxC)) = true then []
      else parseCIDRgo maxC rest count := by
  conv_lhs => rw [parseCIDRgo]
  rw [if_neg (by simp [h])]
  simp only [hip, beq_self_eq_true, if_true, List.nil_append]

/-- The parse loop on a line contributing a candidate: the candidate is
appended and the loop stops iff the new count reaches a positive
`MaxCandidates`. -/
theorem parseCIDRgo_ip (maxC : Int) (line : List Char) (rest : List (List Char)) (count : Nat)
    (h : ((trimCh line).isEmpty || ((trimCh line).head? == some '#')) = false)
    (hip : extractFirstIP (trimCh line) ≠ "") :
    parseCIDRgo maxC (line :: rest) count =
      if (decide (maxC > 0) && decide (((count + 1 : Nat) : Int) ≥ maxC)) = true then
        [extractFirstIP (trimCh line) ++ ":53"]
      else (extractFirstIP (trimCh line) ++ ":53") :: parseCIDRgo maxC rest (count + 1) := by
  conv_lhs => rw [parseCIDRgo]
  rw [if_neg (by simp [h])]
  have hbeq : (extractFirstIP (trimCh line) == "") = false := by simpa using hip
  simp only [hbeq, Bool.false_eq_true, if_false, List.singleton_append]

/-- With `MaxCandidates ≤ 0` the loop never truncates: it is exactly the
per-line `filterMap`. -/
theorem parseCIDRgo_nopos (maxC : Int) (hneg : ¬0 < maxC) :
    ∀ (lines : List (List Char)) (count : Nat),
      parseCIDRgo maxC lines count = lines.filterMap lineCandidate := by
  intro lines
  induction lines with
  | nil => intro count; simp [parseCIDRgo]
  | cons line rest ih =>
    intro count
    by_cases hskip : ((trimCh line).isEmpty || ((trimCh line).head? == some '#')) = true
    · rw [parseCIDRgo_skip maxC line rest count hskip, List.filterMap_cons,
        lineCandidate_skip line hskip]
      exact ih count
    · have hskip' : ((trimCh line).isEmpty || ((trimCh line).head? == some '#')) = false := by
        simpa using hskip
      by_cases hip : extractFirstIP (trimCh line) = ""
      · rw [parseCIDRgo_noip maxC line rest count hskip' hip, List.filterMap_cons,
          lineCandidate_noip line hskip' hip, if_neg (by simp; omega)]
        exact ih count
      · rw [parseCIDRgo_ip maxC line rest count hskip' hip, List.filterMap_cons,
          lineCandidate_ip line hskip' hip, if_neg (by simp; omega)]
        rw [ih (count + 1)]

/-- With a positive `MaxCandidates` the loop returns exactly the first
`MaxCandidates − count` candidates of the per-line `filterMap`. -/
theorem parseCIDRgo_take (maxC : Int) (hpos : 0 < maxC) :
    ∀ (lines : List (List Char)) (count : Nat), count < maxC.toNat →
      parseCIDRgo maxC lines count =
        (lines.filterMap lineCandidate).take (maxC.toNat - count) := by
  intro lines
  induction lines with
  | nil => intro count _; simp [parseCIDRgo]
  | cons line rest ih =>
    intro count hcount
    by_cases hskip : ((trimCh line).isEmpty || ((trimCh line).head? == some '#')) = true
    · rw [parseCIDRgo_skip maxC line rest count hskip, List.filterMap_cons,
        lineCandidate_skip line hskip]
      exact ih count hcount
    · have hskip' : ((trimCh line).isEmpty || ((trimCh line).head? == some '#')) = false := by
        simpa using hskip
      by_cases hip : extractFirstIP (trimCh line) = ""
      · rw [parseCIDRgo_noip maxC line rest count hskip' hip, List.filterMap_cons,
          lineCandidate_noip line hskip' hip, if_neg (by simp; omega)]
        exact ih count hcount
      · rw [parseCIDRgo_ip maxC line rest count hskip' hip, List.filterMap_cons,
          lineCandidate_ip line hskip' hip]
        by_cases hstop : count + 1 ≥ maxC.toNat
        · rw [if_pos (by simp; omega)]
          have htake : maxC.toNat - count = 1 := by omega
          rw [htake, List.take_succ_cons, List.take_zero]
        · rw [if_neg (by simp; omega)]
          have htake : maxC.toNat - count = (maxC.toNat - (count + 1)) + 1 := by omega
          rw [htake, List.take_succ_cons, ih (count + 1) (by omega)]

/-- C9 counterexample: the feed line `::ffff:8.8.8.0/120` is an IPv6 CIDR,
yet the parser does not drop it — Go's `To4` converts the IPv4-mapped masked
network to `8.8.8.0`, and the candidate `8.8.8.1:53` is emitted where the
claim's "drops IPv6 CIDRs" predicts none. -/
theorem C9_counterexample :
    parseCIDRList "::ffff:8.8.8.0/120\n" 100 = ["8.8.8.1:53"] ∧
      extractFirstIP ("::ffff:8.8.8.0/120").data = "8.8.8.1" := by decide

/-- C9 (amended): the candidate parser skips blank lines and `#` comments;
with a positive `max_candidates` it yields exactly the first
`max_candidates` per-line candidates (and all of them otherwise); a CIDR
whose parsed network is IPv6 and not IPv4-mapped (`To4` nil) is dropped; a
CIDR whose network `To4`s to an IPv4 value — a plain IPv4 CIDR or an
IPv4-mapped `::ffff:a.b.c.d/n` one — contributes that network address + 1
suffixed `":53"`; and the S6 feed body yields exactly
`["2.144.0.1:53", "5.0.0.1:53"]` (truncated to the first when
`max_candidates = 1`). -/
theorem C9_theorem :
    (∀ (maxC : Int) (line : List Char) (rest : List (List Char)) (count : Nat),
        (trimCh line).isEmpty = true ∨ (trimCh line).head? = some '#' →
        parseCIDRgo maxC (line :: rest) count = parseCIDRgo maxC rest count) ∧
      (∀ (input : String) (maxC : Int), 0 < maxC →
        parseCIDRList input maxC =
          ((splitCh '\n' input.data).filterMap lineCandidate).take maxC.toNat) ∧
      (∀ (input : String) (maxC : Int), maxC ≤ 0 →
        parseCIDRList input maxC = (splitCh '\n' input.data).filterMap lineCandidate) ∧
      (∀ (l : List Char) (bytes : List Nat), parseCIDR l = some (.v6 bytes) →
        ipTo4 (.v6 bytes) = none → extractFirstIP l = "") ∧
      (∀ (l : List Char) (a : IPAddr) (v : Nat), parseCIDR l = some a →
        ipTo4 a = some v → v + 1 < 2 ^ 32 → extractFirstIP l = ip4String (v + 1)) ∧
      extractFirstIP ("2001:db8::/32").data = "" ∧
      parseCIDRList "# comment\n2.144.0.0/14\n2001:db8::/32\n\n5.0.0.0/8\n" 100 =
        ["2.144.0.1:53", "5.0.0.1:53"] ∧
      parseCIDRList "# comment\n2.144.0.0/14\n2001:db8::/32\n\n5.0.0.0/8\n" 1 =
        ["2.144.0.1:53"] := by
  refine ⟨?_, ?_, ?_, ?_, ?_, by decide, by decide, by decide⟩
  · intro maxC line rest count h
    refine parseCIDRgo_skip maxC line rest count ?_
    rcases h with h | h <;> simp [h]
  · intro input maxC hpos
    unfold parseCIDRList
    rw [parseCIDRgo_take maxC hpos _ 0 (by omega)]
    simp
  · intro input maxC hneg
    unfold parseCIDRList
    exact parseCIDRgo_nopos maxC (by omega) _ 0
  · intro l bytes hp hto4
    simp [extractFirstIP, hp, hto4]
  · intro l a v hp hto4 hv
    simp only [extractFirstIP, hp, hto4, incrementIP4]
    rw [if_pos (by omega)]

/-- C9 witness: a comment line is skipped; the S6 feed at
`max_candidates = 1` equals the truncated per-line candidates; the
non-mapped IPv6 CIDR `2001:db8::/32` is dropped; `5.0.0.0/8` contributes its
network address + 1; and the IPv4-mapped `::ffff:8.8.8.0/120` contributes
its embedded network address + 1. -/
theorem C9_witness :
    parseCIDRgo 7 ["# comment".data, "5.0.0.0/8".data] 0 =
        parseCIDRgo 7 ["5.0.0.0/8".data] 0 ∧
      parseCIDRList "# comment\n2.144.0.0/14\n2001:db8::/32\n\n5.0.0.0/8\n" 1 =
        ((splitCh '\n'
            ("# comment\n2.144.0.0/14\n2001:db8::/32\n\n5.0.0.0/8\n").data).filterMap
              lineCandidate).take 1 ∧
      extractFirstIP "2001:db8::/32".data = "" ∧
      extractFirstIP "5.0.0.0/8".data = ip4String (83886080 + 1) ∧
      extractFirstIP "::ffff:8.8.8.0/120".data = ip4String (134744064 + 1) :=
  ⟨C9_theorem.1 7 "# comment".data ["5.0.0.0/8".data] 0 (Or.inr (by decide)),
    C9_theorem.2.1 "# comment\n2.144.0.0/14\n2001:db8::/32\n\n5.0.0.0/8\n" 1 (by decide),
    C9_theorem.2.2.2.1 "2001:db8::/32".data
      [32, 1, 13, 184, 0, 0, 0, 0, 0, 0, 0, 0, 0, 0, 0, 0] (by decide) (by decide),
    C9_theorem.2.2.2.2.1 "5.0.0.0/8".data (.v4 83886080) 83886080 (by decide) (by decide)
      (by decide),
    C9_theorem.2.2.2.2.1 "::ffff:8.8.8.0/120".data
      (.v6 [0, 0, 0, 0, 0, 0, 0, 0, 0, 0, 255, 255, 8, 8, 8, 0]) 134744064 (by decide)
      (by decide) (by decide)⟩

end DT
